import Mathlib

/-!
Shallow embedding of the hyoka surface/window presentation pipeline
(src/consumer/window.rs and src/consumer.rs).

Conventions of the embedding:
* `u32` values are `Nat` with multiplication reduced modulo `2^32` where the
  source multiplies two `u32`s; `usize` products are reduced modulo `2^64`.
* `f32` coordinates (iced `Rectangle`/`Point`) are modelled as `ℚ`; the only
  float operations the modelled code performs on them are `ceil`, comparisons
  and the saturating-truncating `as i32` cast, all of which are exact on `ℚ`.
* Wayland protocol objects are opaque identities; they are modelled as `Nat`
  keys.  Fresh objects returned by the protocol library (`wl_surface_frame`
  callbacks, shm buffers) are modelled by counters that hand out fresh ids.
* Calls into the compositor and the renderer are recorded as an `Effect` list.
* A Rust `panic!`/`unwrap` failure is modelled by returning `none`.
* The retained-mode UI toolkit (iced) is external to the repository: the
  content of a `UserInterface` is modelled only by its presence (`Option Unit`),
  and the outcome of `ui.update` is an explicit oracle argument (`UIUpdate`).
-/

namespace Hyoka

/-- Model of iced `Rectangle<f32>` (x, y, width, height) over `ℚ`. -/
structure Rect where
  x : ℚ
  y : ℚ
  width : ℚ
  height : ℚ
deriving DecidableEq, Repr

/-- Membership of a point in a rectangle, half-open on the far edges. -/
def Rect.containsPt (r : Rect) (p : ℚ × ℚ) : Prop :=
  r.x ≤ p.1 ∧ p.1 < r.x + r.width ∧ r.y ≤ p.2 ∧ p.2 < r.y + r.height

instance (r : Rect) (p : ℚ × ℚ) : Decidable (r.containsPt p) := by
  unfold Rect.containsPt; infer_instance

/-- Abstraction of `iced_tiny_skia::Layer` (external crate): a paint layer has
a bounding rectangle and otherwise opaque content, compared for equality. -/
structure Layer where
  bounds : Rect
  content : Nat
deriving DecidableEq, Repr

/-- Modelled from the spec: the damage diff combinator of the `iced_graphics`
dependency, called at window.rs:238 (`graphics::damage::diff`).  It zips the
previous and current layer lists through the per-layer diff function `d` and,
when one list is longer, adds the bounds of the unmatched trailing layers.
The per-layer diff (`iced_tiny_skia::Layer::damage`) is kept as the parameter
`d`, exactly as the source passes it in. -/
def damage_diff (bounds : Layer → List Rect) (d : Layer → Layer → List Rect)
    (previous current : List Layer) : List Rect :=
  let damage := (previous.zip current).flatMap fun ab => d ab.1 ab.2
  if previous.length = current.length then
    damage
  else
    let rest :=
      if previous.length < current.length then current.drop previous.length
      else previous.drop current.length
    damage ++ rest.flatMap bounds

/-- Model of `Viewport` (window.rs:640): logical surface size and integer
buffer scale.  The constant `_buffer_transform` field is omitted. -/
structure Viewport where
  surface_size : Nat × Nat
  buffer_scale : Nat
deriving DecidableEq, Repr

/-- window.rs:659 `buffer_width`: `surface_size[0] * buffer_scale` on `u32`. -/
def Viewport.buffer_width (v : Viewport) : Nat :=
  v.surface_size.1 * v.buffer_scale % 2 ^ 32

/-- window.rs:662 `buffer_height`: `surface_size[1] * buffer_scale` on `u32`. -/
def Viewport.buffer_height (v : Viewport) : Nat :=
  v.surface_size.2 * v.buffer_scale % 2 ^ 32

/-- window.rs:668 `buffer_byte_size`: `width * height * 4` on `usize`. -/
def Viewport.buffer_byte_size (v : Viewport) : Nat :=
  v.buffer_width * v.buffer_height * 4 % 2 ^ 64

/-- Model of `Buffer` (window.rs:556): the compositor-side buffer resource is
an opaque id, the shared-memory mapping is represented by its byte length
(the `len` passed to `ftruncate`/`wl_shm_create_pool` at window.rs:589). -/
structure Buffer where
  id : Nat
  viewport : Viewport
  byteLen : Nat
deriving DecidableEq, Repr

/-- Model of `Globals::create_buffer` (window.rs:588): allocates a mapping of
`viewport.buffer_byte_size()` bytes and a fresh compositor buffer resource. -/
def create_buffer (freshId : Nat) (viewport : Viewport) : Buffer :=
  { id := freshId, viewport := viewport, byteLen := viewport.buffer_byte_size }

/-- Model of `tiny_skia::Mask::new(width, height)` (external crate), which
returns `None` when either dimension is zero; the mask itself is represented
by its pixel dimensions. -/
def maskNew (width height : Nat) : Option (Nat × Nat) :=
  if width = 0 ∨ height = 0 then none else some (width, height)

/-- Model of `ConfigState` (window.rs:78).  The `ui` cache contents are
external; only its presence (`Option<UserInterface>` being `Some`) is kept. -/
inductive ConfigState where
  | configured (buffer : Buffer) (clip_mask : Nat × Nat) (ui : Option Unit)
      (last_layers : Option (List Layer))
  | unconfigured (scale_factor : Nat)
deriving DecidableEq, Repr

/-- window.rs:96 `ConfigState::outdate`: drop the cached UI. -/
def ConfigState.outdate : ConfigState → ConfigState
  | .configured buffer clip _ lastL => .configured buffer clip none lastL
  | .unconfigured s => .unconfigured s

/-- Model of iced `mouse::Cursor`. -/
inductive CursorSt where
  | unavailable
  | available (x y : ℚ)
deriving DecidableEq, Repr

/-- Model of the iced `mouse::Event` values this program constructs
(wayland.rs pointer listener and the synthetic `CursorEntered` of
consumer.rs:315).  Wheel events are never constructed by the transport
(`axis: nop!`) and are omitted. -/
inductive MouseEvent where
  | cursorEntered
  | cursorLeft
  | cursorMoved (x y : ℚ)
  | buttonPressed (b : Nat)
  | buttonReleased (b : Nat)
deriving DecidableEq, Repr

/-- Rust `as i32` on an `f32`: truncation toward zero. -/
def truncQ (q : ℚ) : ℤ :=
  if 0 ≤ q then ⌊q⌋ else ⌈q⌉

/-- Rust `as i32` saturates at the `i32` range. -/
def satCastI32 (q : ℚ) : ℤ :=
  max (-(2 ^ 31)) (min (2 ^ 31 - 1) (truncQ q))

/-- One `wl_surface_damage(surface, x, y, width, height)` call after the
`as i32` casts of window.rs:270. -/
structure DamageCall where
  x : ℤ
  y : ℤ
  width : ℤ
  height : ℤ
deriving DecidableEq, Repr

/-- Membership of a rational point in the integer region a damage call
reports to the compositor. -/
def DamageCall.containsPt (c : DamageCall) (p : ℚ × ℚ) : Prop :=
  (c.x : ℚ) ≤ p.1 ∧ p.1 < (c.x : ℚ) + (c.width : ℚ) ∧
  (c.y : ℚ) ≤ p.2 ∧ p.2 < (c.y : ℚ) + (c.height : ℚ)

instance (c : DamageCall) (p : ℚ × ℚ) : Decidable (c.containsPt p) := by
  unfold DamageCall.containsPt; infer_instance

/-- Observable calls into the compositor / renderer, in program order. -/
inductive Effect where
  | attach (bufId : Nat)
  | paint (rects : List Rect)
  | damage (call : DamageCall)
  | commit
  | flush
  | frame (cbId : Nat)
  | setBufferScale (scale : Nat)
  | shapeRequest (serial : Nat) (interaction : Nat)
  | workspaceCommand (id : Nat)
  | deliverMouse (winId : Nat) (ev : MouseEvent)
deriving DecidableEq, Repr

/-- The wl_surface and role-specific identities a `Surface` owns
(window.rs:107): the base `wl_surface` key and the key `Role::key` yields
(the layer surface for panels, the popup for popups). -/
structure SurfaceRec where
  surface : Nat
  roleKey : Nat
deriving DecidableEq, Repr

/-- Model of the per-window `State` (window.rs:122) merged with the window's
owned `Surface` identities; the renderer is external and omitted. -/
structure WinState where
  surface : SurfaceRec
  cursor : CursorSt
  serial : Option Nat
  shape : Option Nat
  config_state : ConfigState
deriving DecidableEq, Repr

/-- The frame-callback registry `Callbacks` (consumer.rs:185): a map from
callback identity to the registered completion action.  The closure registered
by `request_redraw` re-borrows one window and calls its `redraw`, so an action
is represented by that window's id.  `nextCb` models the fresh callback
objects `wl_surface_frame` returns. -/
structure CbState where
  table : Nat → Option Nat
  nextCb : Nat

/-- Pointwise update of a key-indexed optional map. -/
def updF (f : Nat → Option Nat) (k : Nat) (v : Option Nat) : Nat → Option Nat :=
  fun q => if q = k then v else f q

/-- Model of `Window::request_redraw` (window.rs:420): obtain a fresh frame
callback, add the listener, commit the surface, then `try_insert` the
completion action; a duplicate key makes the source `unwrap` panic. -/
def requestRedraw (winId : Nat) (cb : CbState) : Option (CbState × List Effect) :=
  let cbId := cb.nextCb
  match cb.table cbId with
  | some _ => none
  | none =>
      some ({ table := updF cb.table cbId (some winId), nextCb := cbId + 1 },
            [.frame cbId, .commit])

/-- Result of `State::resize`: the new window state, the advanced buffer-id
counter and the emitted effects. -/
structure SRes where
  win : WinState
  nextBuf : Nat
  effects : List Effect

/-- Model of `State::resize` (window.rs:143).  Both branches allocate a buffer
for the viewport at the new logical size (keeping the current scale) and leave
`Configured` with a fresh clip mask and cleared damage history; only the
`Unconfigured` branch attaches the buffer immediately (window.rs:178).
The UI tree is rebuilt or relayouted externally; it is present afterwards. -/
def stateResize (nextBuf : Nat) (size : Nat × Nat) (st : WinState) : Option SRes :=
  match st.config_state with
  | .configured buffer _clip _ui _lastL =>
      let viewport := { buffer.viewport with surface_size := size }
      let buf := create_buffer nextBuf viewport
      match maskNew viewport.buffer_width viewport.buffer_height with
      | none => none
      | some m =>
          some ⟨{ st with config_state := .configured buf m (some ()) none },
                nextBuf + 1, []⟩
  | .unconfigured scale_factor =>
      let viewport : Viewport := ⟨size, scale_factor⟩
      let buf := create_buffer nextBuf viewport
      match maskNew viewport.buffer_width viewport.buffer_height with
      | none => none
      | some m =>
          some ⟨{ st with config_state := .configured buf m (some ()) none },
                nextBuf + 1, [.attach buf.id]⟩

/-- Result of `Window::rescale`, including how many buffers the call
allocated (`create_buffer` call count). -/
structure RescaleResult where
  win : WinState
  cb : CbState
  nextBuf : Nat
  allocs : Nat
  effects : List Effect

/-- Model of `Window::rescale` (window.rs:387).  In `Configured` with an
unchanged scale it returns early (window.rs:398) before the
`set_buffer_scale`/flush calls; with a changed scale it reallocates the buffer
at the new scale, remasks, clears the damage history and requests a redraw.
In `Unconfigured` it only records the pending scale. -/
def windowRescale (scale : Nat) (winId : Nat) (st : WinState) (cb : CbState)
    (nextBuf : Nat) : Option RescaleResult :=
  match st.config_state with
  | .configured buffer _clip ui _lastL =>
      if buffer.viewport.buffer_scale = scale then
        some ⟨st, cb, nextBuf, 0, []⟩
      else
        let buf := create_buffer nextBuf { buffer.viewport with buffer_scale := scale }
        match maskNew buf.viewport.buffer_width buf.viewport.buffer_height with
        | none => none
        | some m =>
            match requestRedraw winId cb with
            | none => none
            | some (cb1, effsR) =>
                some ⟨{ st with config_state := .configured buf m ui none }, cb1,
                      nextBuf + 1, 1, effsR ++ [.setBufferScale scale, .flush]⟩
  | .unconfigured _ =>
      some ⟨{ st with config_state := .unconfigured scale }, cb, nextBuf, 0,
            [.setBufferScale scale, .flush]⟩

/-- The damage list `State::redraw` computes (window.rs:237): the layer diff
against the previous frame when one exists, otherwise the full surface bounds
(window.rs:245, built from the logical `surface_size`). -/
def computedDamage (d : Layer → Layer → List Rect) (cur : List Layer)
    (viewport : Viewport) (lastL : Option (List Layer)) : List Rect :=
  match lastL with
  | some prev => damage_diff (fun l => [l.bounds]) d prev cur
  | none =>
      [⟨0, 0, (viewport.surface_size.1 : ℚ), (viewport.surface_size.2 : ℚ)⟩]

/-- The rounding loop of window.rs:251: only width and height are ceiled. -/
def roundWH (r : Rect) : Rect :=
  { r with width := (⌈r.width⌉ : ℚ), height := (⌈r.height⌉ : ℚ) }

/-- The `wl_surface_damage` argument casts of window.rs:270. -/
def reportCall (r : Rect) : DamageCall :=
  ⟨satCastI32 r.x, satCastI32 r.y, satCastI32 r.width, satCastI32 r.height⟩

/-- Model of `State::redraw` (window.rs:195).  Nothing happens while
`Unconfigured`.  In `Configured`: the UI is ensured and updated (external),
its layers `cur` are diffed into damage, the layers are stored as the next
baseline, width/height of each damage rectangle are ceiled, the renderer
paints, and the buffer is attached, damaged per rectangle, committed and
flushed.  `PixmapMut::from_bytes` (window.rs:563) panics on zero pixel
dimensions, modelled by `none`. -/
def stateRedraw (d : Layer → Layer → List Rect) (cur : List Layer)
    (st : WinState) : Option (WinState × List Effect) :=
  match st.config_state with
  | .unconfigured _ => some (st, [])
  | .configured buffer clip _ui lastL =>
      if buffer.viewport.buffer_width = 0 ∨ buffer.viewport.buffer_height = 0 then
        none
      else
        let dmg := computedDamage d cur buffer.viewport lastL
        let rounded := dmg.map roundWH
        some ({ st with config_state := .configured buffer clip (some ()) (some cur) },
              [.paint rounded, .attach buffer.id]
                ++ rounded.map (fun r => .damage (reportCall r))
                ++ [.commit, .flush])

/-- Model of `WindowManager` (window.rs:320): the identity lookup table and
the pointer-focused surface identity. -/
structure WindowManager where
  lut : Nat → Option Nat
  focused : Option Nat

/-- window.rs:348 `WindowManager::find_by_object`. -/
def find_by_object (m : WindowManager) (obj : Nat) : Option Nat :=
  m.lut obj

/-- window.rs:351 `WindowManager::focused()`: look the focused surface
identity up in the table. -/
def focusedWindow (m : WindowManager) : Option Nat :=
  m.focused.bind m.lut

/-- Model of `WindowManager::close_window` (window.rs:339): clear focus when
the closed window holds it, then remove the role key (whose absence makes the
source `unwrap` panic) and the base surface key. -/
def close_window (m : WindowManager) (s : SurfaceRec) : Option WindowManager :=
  let focused := if m.focused = some s.surface then none else m.focused
  match m.lut s.roleKey with
  | none => none
  | some _ =>
      some { lut := updF (updF m.lut s.roleKey none) s.surface none,
             focused := focused }

/-- Pointwise update of the window-state map. -/
def updW (f : Nat → WinState) (k : Nat) (v : WinState) : Nat → WinState :=
  fun q => if q = k then v else f q

/-- Runner messages the embedding models (`consumer::program::Message` routed
through the runner's action handling, consumer.rs:370).  `closeTooltip` closes
the live tooltip window; `workspace` only issues a window-manager command.
The tooltip-creating messages (window info, battery, tray) need external
collaborator responses and are outside this embedding. -/
inductive Msg where
  | closeTooltip
  | workspace (id : Nat)
deriving DecidableEq, Repr

/-- Oracle for the external `ui.update` call inside `Window::mouse`:
`updated = some (mouse_interaction, redraw_requested)` models the
`State::Updated` outcome (window.rs:496), `none` models an outdated UI;
`messages` are the messages widgets pushed during the update. -/
structure UIUpdate where
  updated : Option (Nat × Bool)
  messages : List Msg

/-- State of the `Runner` (consumer.rs:201) restricted to the fields the
window pipeline touches: the registry, per-window states, the callbacks
table, the buffer-id counter and the live tooltip window. -/
structure RState where
  wm : WindowManager
  win : Nat → WinState
  cb : CbState
  nextBuf : Nat
  tooltip : Option Nat

/-- One `runner.update(message)` step for the modelled message alphabet:
`CloseTooltip` (consumer.rs:437) takes the tooltip window and closes it;
`Workspace` (consumer.rs:372) sends a command to the window manager. -/
def runnerUpdate (m : Msg) (wm : WindowManager) (tooltip : Option Nat)
    (win : Nat → WinState) : Option (WindowManager × Option Nat × List Effect) :=
  match m with
  | .workspace id => some (wm, tooltip, [.workspaceCommand id])
  | .closeTooltip =>
      match tooltip with
      | none => some (wm, none, [])
      | some t =>
          match close_window wm (win t).surface with
          | none => none
          | some wm2 => some (wm2, none, [])

/-- Fold `runnerUpdate` over the message list collected by `Window::mouse`
(window.rs:532). -/
def runnerUpdates (msgs : List Msg) (wm : WindowManager) (tooltip : Option Nat)
    (win : Nat → WinState) : Option (WindowManager × Option Nat × List Effect) :=
  match msgs with
  | [] => some (wm, tooltip, [])
  | m :: rest =>
      match runnerUpdate m wm tooltip win with
      | none => none
      | some (wm1, t1, effs1) =>
          match runnerUpdates rest wm1 t1 win with
          | none => none
          | some (wm2, t2, effs2) => some (wm2, t2, effs1 ++ effs2)

/-- The `State::Updated` handling inside `Window::mouse` (window.rs:496): a
`NextFrame` redraw request calls `request_redraw`, and a changed interaction
hint while a serial is remembered issues one cursor-shape request (the
source never stores the applied hint back, it only compares). -/
def mouseUIStep (uo : UIUpdate) (st2 : WinState) (winId : Nat) (cb : CbState) :
    Option (CbState × List Effect) :=
  match uo.updated with
  | none => some (cb, [])
  | some (interaction, nextFrame) =>
      match (if nextFrame then requestRedraw winId cb else some (cb, [])) with
      | none => none
      | some (cb1, effs1) =>
          let effs2 :=
            match st2.serial with
            | some sr =>
                if some interaction ≠ st2.shape then [Effect.shapeRequest sr interaction]
                else []
            | none => []
          some (cb1, effs1 ++ effs2)

/-- Model of `Window::mouse` (window.rs:453).  When the window is
`Unconfigured` the whole handling block is skipped and only the final display
flush happens.  When `Configured`: the event updates cursor/serial/shape
(`CursorLeft` clears all three and pushes `CloseTooltip`), the UI cache is
ensured, `ui.update` runs (oracle `uo`, handled by `mouseUIStep`), then the
collected messages run through the runner and the connection is flushed. -/
def windowMouse (uo : UIUpdate) (ev : MouseEvent) (winId : Nat) (r : RState) :
    Option (RState × List Effect) :=
  let st := r.win winId
  match st.config_state with
  | .unconfigured _ => some (r, [.flush])
  | .configured buffer clip _ui lastL =>
      let stMsgs : WinState × List Msg :=
        match ev with
        | .cursorMoved x y => ({ st with cursor := .available x y }, [])
        | .cursorLeft =>
            ({ st with cursor := .unavailable, serial := none, shape := none },
             [.closeTooltip])
        | _ => (st, [])
      let st2 := { stMsgs.1 with config_state := .configured buffer clip (some ()) lastL }
      let msgs := stMsgs.2 ++ uo.messages
      match mouseUIStep uo st2 winId r.cb with
      | none => none
      | some (cb1, effsU) =>
          let base := { r with win := updW r.win winId st2 }
          match runnerUpdates msgs base.wm r.tooltip base.win with
          | none => none
          | some (wm2, t2, effsM) =>
              some ({ base with wm := wm2, tooltip := t2, cb := cb1 },
                    effsU ++ effsM ++ [.flush])

/-- Compositor events as delivered to the dispatcher (wayland.rs:29). -/
inductive WEvent where
  | resize (object : Nat) (size : Nat × Nat)
  | rescale (surface : Nat) (factor : Nat)
  | enter (surface : Nat) (serial : Nat)
  | mouse (ev : MouseEvent)
  | callbackDone (cbId : Nat)
deriving DecidableEq, Repr

/-- Model of `Runner::dispatch_wayland` (consumer.rs:299).  The result's
`Bool` is `true` when the event was handled, `false` when the `?` on a failed
identity lookup dropped it (the source's `None` return); `none` models a
panic.  `Resize` routes through `Window::resize` (window.rs:380):
`State::resize`, then `request_redraw`, then flush.  `CallbackDone` removes
the registered action (panicking when the key is absent, consumer.rs:329) and
runs the window's `redraw` with the frame layers `cur`. -/
def dispatch (d : Layer → Layer → List Rect) (cur : List Layer) (uo : UIUpdate)
    (e : WEvent) (r : RState) : Option (RState × List Effect × Bool) :=
  match e with
  | .resize object size =>
      match find_by_object r.wm object with
      | none => some (r, [], false)
      | some w =>
          match stateResize r.nextBuf size (r.win w) with
          | none => none
          | some sres =>
              match requestRedraw w r.cb with
              | none => none
              | some (cb1, effsR) =>
                  some ({ r with
                            win := updW r.win w sres.win
                            nextBuf := sres.nextBuf
                            cb := cb1 },
                        sres.effects ++ effsR ++ [.flush], true)
  | .rescale surface factor =>
      match find_by_object r.wm surface with
      | none => some (r, [], false)
      | some w =>
          match windowRescale factor w (r.win w) r.cb r.nextBuf with
          | none => none
          | some res =>
              some ({ r with
                        win := updW r.win w res.win
                        cb := res.cb
                        nextBuf := res.nextBuf },
                    res.effects, true)
  | .enter surface serial =>
      match find_by_object r.wm surface with
      | none => some (r, [], false)
      | some w =>
          match windowMouse uo .cursorEntered w r with
          | none => none
          | some (r1, effs) =>
              let r2 := { r1 with
                            win := updW r1.win w { r1.win w with serial := some serial }
                            wm := { r1.wm with focused := some surface } }
              some (r2, .deliverMouse w .cursorEntered :: effs, true)
  | .mouse ev =>
      match r.wm.focused with
      | none => some (r, [], false)
      | some fs =>
          match r.wm.lut fs with
          | none => some (r, [], false)
          | some w =>
              match windowMouse uo ev w r with
              | none => none
              | some (r1, effs) =>
                  let r2 :=
                    match ev with
                    | .cursorLeft => { r1 with wm := { r1.wm with focused := none } }
                    | _ => r1
                  some (r2, .deliverMouse w ev :: effs, true)
  | .callbackDone cbId =>
      match r.cb.table cbId with
      | none => none
      | some w =>
          let cb1 : CbState := { table := updF r.cb.table cbId none, nextCb := r.cb.nextCb }
          match stateRedraw d cur (r.win w) with
          | none => none
          | some sres => some ({ r with cb := cb1, win := updW r.win w sres.1 }, sres.2, true)

/-- Model of `Window::resize` (window.rs:380): `State::resize`, then
`request_redraw`, then a display flush. -/
def windowResize (size : Nat × Nat) (winId : Nat) (st : WinState) (cb : CbState)
    (nextBuf : Nat) : Option (WinState × CbState × Nat × List Effect) :=
  match stateResize nextBuf size st with
  | none => none
  | some sres =>
      match requestRedraw winId cb with
      | none => none
      | some (cb1, effsR) =>
          some (sres.win, cb1, sres.nextBuf, sres.effects ++ effsR ++ [.flush])

/-- A sequence of `Window::resize` calls applied left to right. -/
def applyResizes (winId : Nat) (st : WinState) (cb : CbState) (nextBuf : Nat) :
    List (Nat × Nat) → Option (WinState × CbState × Nat)
  | [] => some (st, cb, nextBuf)
  | s :: rest =>
      match windowResize s winId st cb nextBuf with
      | none => none
      | some (st1, cb1, nb1, _) => applyResizes winId st1 cb1 nb1 rest

/-- The buffer scale a window currently carries: the attached buffer's
viewport scale when configured, the pending `scale_factor` otherwise. -/
def scaleOf (st : WinState) : Nat :=
  match st.config_state with
  | .configured buffer _ _ _ => buffer.viewport.buffer_scale
  | .unconfigured scale_factor => scale_factor

/-- Whether a window state is in the `Configured` arm. -/
def isConfigured (st : WinState) : Bool :=
  match st.config_state with
  | .configured _ _ _ _ => true
  | .unconfigured _ => false

/-- The pointer events the spec calls Motion and Button events. -/
def isMotionOrButton : MouseEvent → Bool
  | .cursorMoved _ _ => true
  | .buttonPressed _ => true
  | .buttonReleased _ => true
  | _ => false

/-- The damage calls among a list of effects. -/
def damageCalls (effs : List Effect) : List DamageCall :=
  effs.filterMap fun e =>
    match e with
    | .damage c => some c
    | _ => none

/-- A rational that is an integer (exactly representable pixel coordinate). -/
def isIntQ (q : ℚ) : Prop := q.den = 1

instance (q : ℚ) : Decidable (isIntQ q) := by unfold isIntQ; infer_instance

/-- An empty callbacks table with the fresh-callback counter at zero. -/
def cb0 : CbState := ⟨fun _ => none, 0⟩

/-- A freshly created window (window.rs:367): unconfigured at scale 1. -/
def w0 : WinState := ⟨⟨10, 11⟩, .unavailable, none, none, .unconfigured 1⟩

/-- A per-layer diff that reports no damage; instantiates the per-layer
damage parameter in witnesses. -/
def dNone : Layer → Layer → List Rect := fun _ _ => []

/-- A UI-update oracle reporting an outdated interface and no messages. -/
def uoIdle : UIUpdate := ⟨none, []⟩

/-- A configured window state: 2x1 logical surface at scale 1, cursor idle,
with an empty previous frame recorded. -/
def wConf : WinState :=
  let v : Viewport := ⟨(2, 1), 1⟩
  ⟨⟨10, 11⟩, .unavailable, none, none,
    .configured (create_buffer 0 v) (v.buffer_width, v.buffer_height) (some ())
      (some [])⟩

/-- A configured window state at scale 1 holding a remembered serial, used to
exercise `rescale` and `redraw` after configuration. -/
def wConf2 : WinState :=
  let v : Viewport := ⟨(800, 35), 1⟩
  ⟨⟨10, 11⟩, .unavailable, some 7, none,
    .configured (create_buffer 0 v) (v.buffer_width, v.buffer_height) (some ())
      (some [])⟩

/-- An unconfigured window that remembers pointer serial 7 (reachable by an
`Enter` event delivered before the first configure). -/
def wStale : WinState := ⟨⟨10, 11⟩, .unavailable, some 7, none, .unconfigured 1⟩

/-- A runner whose only window is `wStale`, registered under surface key 10
and focused. -/
def rStale : RState :=
  { wm := { lut := fun k => if k = 10 then some 0 else none, focused := some 10 },
    win := fun _ => wStale,
    cb := cb0,
    nextBuf := 1,
    tooltip := none }

/-- A runner with no windows registered and nothing focused. -/
def rEmpty : RState :=
  { wm := { lut := fun _ => none, focused := none },
    win := fun _ => w0,
    cb := cb0,
    nextBuf := 0,
    tooltip := none }

/-- The current-frame layer list of the C3 counterexample: one layer whose
bounds start at the non-integer x origin 1/2. -/
def curHalf : List Layer := [⟨⟨1/2, 0, 1, 1⟩, 0⟩]

/-- A registry holding one window under surface key 10 and role key 11,
with that window focused. -/
def mEx : WindowManager :=
  { lut := fun k => if k = 10 ∨ k = 11 then some 0 else none, focused := some 10 }

/-- The surface record of the window registered in `mEx`. -/
def sEx : SurfaceRec := ⟨10, 11⟩

/-- C10: calling `redraw` on a window whose configuration state is
`Unconfigured` is a total no-op: the window state is returned unchanged and
no effect is emitted, so nothing is written, attached, damaged or
committed. -/
theorem redraw_unconfigured_noop (d : Layer → Layer → List Rect)
    (cur : List Layer) (s : SurfaceRec) (c : CursorSt)
    (serial shape : Option Nat) (k : Nat) :
    stateRedraw d cur ⟨s, c, serial, shape, .unconfigured k⟩ =
      some (⟨s, c, serial, shape, .unconfigured k⟩, []) := rfl

/-- C8: dispatching a `Resize`, `Rescale` or `Enter` event whose target
identity is not registered is tolerated: the lookup returns `None`, the event
is dropped (handled flag `false`), the runner state is unchanged and nothing
fails. -/
theorem dispatch_unknown_object_dropped (d : Layer → Layer → List Rect)
    (cur : List Layer) (uo : UIUpdate) (r : RState) (obj : Nat)
    (size : Nat × Nat) (factor serial : Nat) (h : r.wm.lut obj = none) :
    dispatch d cur uo (.resize obj size) r = some (r, [], false) ∧
    dispatch d cur uo (.rescale obj factor) r = some (r, [], false) ∧
    dispatch d cur uo (.enter obj serial) r = some (r, [], false) := by
  refine ⟨?_, ?_, ?_⟩ <;> simp [dispatch, find_by_object, h]

/-- Witness for C8 at a concrete runner with no registered identities. -/
theorem dispatch_unknown_object_dropped_witness :
    rEmpty.wm.lut 42 = none ∧
    dispatch dNone [] uoIdle (.resize 42 (3, 3)) rEmpty = some (rEmpty, [], false) ∧
    dispatch dNone [] uoIdle (.rescale 42 2) rEmpty = some (rEmpty, [], false) ∧
    dispatch dNone [] uoIdle (.enter 42 5) rEmpty = some (rEmpty, [], false) :=
  ⟨rfl, dispatch_unknown_object_dropped dNone [] uoIdle rEmpty 42 (3, 3) 2 5 rfl⟩

/-- C4: after a successful `close_window`, `find_by_object` returns `None`
for both identities the window owned (its base surface and its role-specific
object), and if that window was focused, focus is cleared and `focused()`
returns `None`. -/
theorem close_window_removes_identities (m : WindowManager) (s : SurfaceRec)
    (m2 : WindowManager) (h : close_window m s = some m2) :
    find_by_object m2 s.surface = none ∧ find_by_object m2 s.roleKey = none ∧
    (m.focused = some s.surface → m2.focused = none ∧ focusedWindow m2 = none) := by
  unfold close_window at h
  cases hr : m.lut s.roleKey with
  | none => rw [hr] at h; cases h
  | some w =>
      rw [hr] at h
      cases h
      refine ⟨?_, ?_, fun hf => ?_⟩
      · simp [find_by_object, updF]
      · simp only [find_by_object, updF]
        split <;> simp
      · constructor
        · simp [hf]
        · simp [focusedWindow, hf]

/-- Witness for C4 at a concrete registry holding one focused window. -/
theorem close_window_removes_identities_witness :
    ∃ m2, close_window mEx sEx = some m2 ∧
      find_by_object m2 sEx.surface = none ∧ find_by_object m2 sEx.roleKey = none ∧
      (mEx.focused = some sEx.surface → m2.focused = none ∧ focusedWindow m2 = none) := by
  obtain ⟨h1, h2, h3⟩ := close_window_removes_identities mEx sEx _ rfl
  exact ⟨_, rfl, h1, h2, h3⟩

/-- A successful `rescale` leaves the window carrying the requested scale,
whichever branch it took. -/
theorem windowRescale_scaleOf (scale winId : Nat) (st : WinState)
    (cb : CbState) (nextBuf : Nat) (res1 : RescaleResult)
    (h : windowRescale scale winId st cb nextBuf = some res1) :
    scaleOf res1.win = scale := by
  cases st with
  | mk surf cursor serial shape config =>
    cases config with
    | unconfigured k =>
        simp only [windowRescale, Option.some.injEq] at h
        subst h
        rfl
    | configured buffer clip ui lastL =>
        simp only [windowRescale] at h
        split at h
        · next hcond =>
            injection h with h
            subst h
            exact hcond
        · split at h
          · cases h
          · split at h
            · cases h
            · next cb1 effsR heq =>
                injection h with h
                subst h
                rfl

/-- When a window already carries the requested scale, `rescale` allocates no
buffer: in `Configured` it returns early, in `Unconfigured` it only stores
the scale again. -/
theorem windowRescale_noalloc (scale winId : Nat) (st : WinState)
    (cb : CbState) (nextBuf : Nat) (h : scaleOf st = scale) :
    ∃ res, windowRescale scale winId st cb nextBuf = some res ∧
      res.allocs = 0 := by
  cases st with
  | mk surf cursor serial shape config =>
    cases config with
    | unconfigured k => exact ⟨_, rfl, rfl⟩
    | configured buffer clip ui lastL =>
        have hb : buffer.viewport.buffer_scale = scale := h
        refine ⟨⟨⟨surf, cursor, serial, shape, .configured buffer clip ui lastL⟩,
          cb, nextBuf, 0, []⟩, ?_, rfl⟩
        simp only [windowRescale]
        rw [if_pos hb]

/-- C5: a second `rescale` with the same scale, immediately after a first one,
allocates no buffer (its `create_buffer` call count is zero), in every
configuration state. -/
theorem rescale_idempotent_allocation (scale winId : Nat) (st : WinState)
    (cb : CbState) (nextBuf : Nat) (res1 : RescaleResult)
    (h : windowRescale scale winId st cb nextBuf = some res1) :
    ∃ res2, windowRescale scale winId res1.win res1.cb res1.nextBuf = some res2 ∧
      res2.allocs = 0 :=
  windowRescale_noalloc scale winId res1.win res1.cb res1.nextBuf
    (windowRescale_scaleOf scale winId st cb nextBuf res1 h)

/-- Witness for C5: rescaling the configured window `wConf` to its current
scale twice; the second call allocates nothing. -/
theorem rescale_idempotent_allocation_witness :
    ∃ res2, windowRescale 1 0 (RescaleResult.mk wConf cb0 5 0 []).win
        (RescaleResult.mk wConf cb0 5 0 []).cb
        (RescaleResult.mk wConf cb0 5 0 []).nextBuf = some res2 ∧
      res2.allocs = 0 :=
  rescale_idempotent_allocation 1 0 wConf cb0 5 ⟨wConf, cb0, 5, 0, []⟩ rfl

/-- A successful `State::resize` leaves the window configured with the buffer
freshly allocated for the requested logical size at the window's previous
scale, a present UI and cleared damage history, and advances the buffer-id
counter by one. -/
theorem stateResize_config (nb : Nat) (size : Nat × Nat) (st : WinState)
    (sres : SRes) (h : stateResize nb size st = some sres) :
    (∃ clip, sres.win.config_state =
      .configured (create_buffer nb ⟨size, scaleOf st⟩) clip (some ()) none) ∧
    sres.nextBuf = nb + 1 := by
  cases st with
  | mk surf cursor serial shape config =>
    cases config with
    | unconfigured k =>
        simp only [stateResize] at h
        split at h
        · cases h
        · injection h with h
          subst h
          exact ⟨⟨_, rfl⟩, rfl⟩
    | configured buffer clip ui lastL =>
        simp only [stateResize] at h
        split at h
        · cases h
        · injection h with h
          subst h
          exact ⟨⟨_, rfl⟩, rfl⟩

/-- A successful `Window::resize` leaves the window configured with the
buffer freshly allocated for the requested logical size at the window's
previous scale, a present UI and cleared damage history. -/
theorem windowResize_config (size : Nat × Nat) (winId : Nat) (st : WinState)
    (cb : CbState) (nb : Nat) (st1 : WinState) (cb1 : CbState) (nb1 : Nat)
    (effs : List Effect)
    (h : windowResize size winId st cb nb = some (st1, cb1, nb1, effs)) :
    ∃ clip, st1.config_state =
      .configured (create_buffer nb ⟨size, scaleOf st⟩) clip (some ()) none := by
  unfold windowResize at h
  cases hs : stateResize nb size st with
  | none => rw [hs] at h; cases h
  | some sres =>
      rw [hs] at h
      cases hr : requestRedraw winId cb with
      | none => rw [hr] at h; cases h
      | some p =>
          obtain ⟨cbR, effsR⟩ := p
          rw [hr] at h
          simp only [Option.some.injEq, Prod.mk.injEq] at h
          obtain ⟨h1, -, -, -⟩ := h
          subst h1
          exact (stateResize_config nb size st sres hs).1

/-- `Window::resize` never changes the buffer scale the window carries. -/
theorem windowResize_scaleOf (size : Nat × Nat) (winId : Nat) (st : WinState)
    (cb : CbState) (nb : Nat) (st1 : WinState) (cb1 : CbState) (nb1 : Nat)
    (effs : List Effect)
    (h : windowResize size winId st cb nb = some (st1, cb1, nb1, effs)) :
    scaleOf st1 = scaleOf st := by
  obtain ⟨clip, hc⟩ := windowResize_config size winId st cb nb st1 cb1 nb1 effs h
  simp [scaleOf, hc, create_buffer]

/-- A sequence of `resize` calls never changes the buffer scale. -/
theorem applyResizes_scaleOf (winId : Nat) (szs : List (Nat × Nat)) :
    ∀ st cb nb out, applyResizes winId st cb nb szs = some out →
      scaleOf out.1 = scaleOf st := by
  induction szs with
  | nil =>
      intro st cb nb out h
      injection h with h
      subst h
      rfl
  | cons s rest ih =>
      intro st cb nb out h
      simp only [applyResizes] at h
      cases hw : windowResize s winId st cb nb with
      | none => rw [hw] at h; cases h
      | some q =>
          obtain ⟨st1, cb1, nb1, effs⟩ := q
          rw [hw] at h
          exact (ih st1 cb1 nb1 out h).trans
            (windowResize_scaleOf s winId st cb nb st1 cb1 nb1 effs hw)

/-- Unfolding a resize sequence at its final element. -/
theorem applyResizes_append (winId : Nat) (l : List (Nat × Nat)) (x : Nat × Nat) :
    ∀ st cb nb, applyResizes winId st cb nb (l ++ [x]) =
      (applyResizes winId st cb nb l).bind fun mid =>
        (windowResize x winId mid.1 mid.2.1 mid.2.2).map fun q =>
          (q.1, q.2.1, q.2.2.1) := by
  induction l with
  | nil =>
      intro st cb nb
      simp only [List.nil_append, applyResizes, Option.bind_eq_bind, Option.some_bind]
      cases hw : windowResize x winId st cb nb with
      | none => rfl
      | some q =>
          obtain ⟨st2, cb2, nb2, effs⟩ := q
          rfl
  | cons s rest ih =>
      intro st cb nb
      simp only [List.cons_append, applyResizes]
      cases hw : windowResize s winId st cb nb with
      | none => rfl
      | some q =>
          obtain ⟨st1, cb1, nb1, effs⟩ := q
          exact ih st1 cb1 nb1

/-- C1: after any sequence of `resize` calls ending at logical size
(width, height), the window is configured with a buffer whose viewport is
that size at the window's (unchanged) buffer scale s, and — whenever the
`u32`/`usize` products do not overflow — the buffer's pixel byte length is
exactly (width * s) * (height * s) * 4. -/
theorem resize_buffer_byte_size (winId : Nat) (st : WinState) (cb : CbState)
    (nb : Nat) (szs : List (Nat × Nat)) (width height : Nat)
    (out : WinState × CbState × Nat)
    (h : applyResizes winId st cb nb (szs ++ [(width, height)]) = some out)
    (h1 : width * scaleOf st < 2 ^ 32) (h2 : height * scaleOf st < 2 ^ 32)
    (h3 : width * scaleOf st * (height * scaleOf st) * 4 < 2 ^ 64) :
    ∃ buf clip, out.1.config_state = .configured buf clip (some ()) none ∧
      buf.viewport.surface_size = (width, height) ∧
      buf.viewport.buffer_scale = scaleOf st ∧
      buf.byteLen = width * scaleOf st * (height * scaleOf st) * 4 := by
  rw [applyResizes_append] at h
  cases hl : applyResizes winId st cb nb szs with
  | none => rw [hl] at h; cases h
  | some mid =>
      obtain ⟨st1, cb1, nb1⟩ := mid
      rw [hl] at h
      simp only [Option.bind_eq_bind, Option.some_bind] at h
      cases hw : windowResize (width, height) winId st1 cb1 nb1 with
      | none => rw [hw] at h; cases h
      | some q =>
          obtain ⟨st2, cb2, nb2, effs⟩ := q
          rw [hw] at h
          simp only [Option.map_some', Option.some.injEq] at h
          subst h
          have hs1 : scaleOf st1 = scaleOf st :=
            applyResizes_scaleOf winId szs st cb nb (st1, cb1, nb1) hl
          obtain ⟨clip, hc⟩ :=
            windowResize_config (width, height) winId st1 cb1 nb1 st2 cb2 nb2 effs hw
          rw [hs1] at hc
          refine ⟨_, clip, hc, rfl, rfl, ?_⟩
          simp only [create_buffer, Viewport.buffer_byte_size, Viewport.buffer_width,
            Viewport.buffer_height]
          rw [Nat.mod_eq_of_lt h1, Nat.mod_eq_of_lt h2, Nat.mod_eq_of_lt h3]

/-- Witness for C1: the panel scenario of the spec — a first resize of the
fresh window `w0` to 800x35 at scale 1 yields a 112000-byte buffer. -/
theorem resize_buffer_byte_size_witness :
    ∃ out, applyResizes 0 w0 cb0 0 ([] ++ [(800, 35)]) = some out ∧
      ∃ buf clip, out.1.config_state = .configured buf clip (some ()) none ∧
        buf.viewport.surface_size = (800, 35) ∧
        buf.viewport.buffer_scale = scaleOf w0 ∧
        buf.byteLen = 800 * scaleOf w0 * (35 * scaleOf w0) * 4 :=
  ⟨_, rfl, resize_buffer_byte_size 0 w0 cb0 0 [] 800 35 _ rfl
    (by decide) (by decide) (by decide)⟩

/-- C2 counterexample: two `request_redraw` calls for the same window while
the first frame callback is still outstanding both succeed and leave two
outstanding completion actions (under the distinct fresh callback keys 0 and
1) for that one window — the second request is neither deduplicated nor
deferred, so more than one "done" subscription is outstanding at once. -/
theorem request_redraw_double_subscription :
    ∃ cb1 e1 cb2 e2, requestRedraw 5 cb0 = some (cb1, e1) ∧
      requestRedraw 5 cb1 = some (cb2, e2) ∧
      cb2.table 0 = some 5 ∧ cb2.table 1 = some 5 :=
  ⟨_, _, _, _, rfl, rfl, rfl, rfl⟩

/-- C2 amended: every `request_redraw` registers its completion action under
a fresh callback key (each call subscribes anew — there is no per-window
deduplication), leaving the rest of the table unchanged, while the callbacks
registry rejects a genuinely duplicate key by failing loudly instead of
overwriting. -/
theorem request_redraw_fresh_key (winId : Nat) (cb : CbState) :
    (cb.table cb.nextCb = none →
      ∃ cb1, requestRedraw winId cb =
          some (cb1, [.frame cb.nextCb, .commit]) ∧
        cb1.table cb.nextCb = some winId ∧ cb1.nextCb = cb.nextCb + 1 ∧
        ∀ k, k ≠ cb.nextCb → cb1.table k = cb.table k) ∧
    (∀ w2, cb.table cb.nextCb = some w2 → requestRedraw winId cb = none) := by
  constructor
  · intro h
    refine ⟨⟨updF cb.table cb.nextCb (some winId), cb.nextCb + 1⟩, ?_, ?_, rfl, ?_⟩
    · simp only [requestRedraw, h]
    · simp [updF]
    · intro k hk
      simp [updF, hk]
  · intro w2 h
    simp only [requestRedraw, h]

/-- Witness for the amended C2 on the empty callbacks table. -/
theorem request_redraw_fresh_key_witness :
    ∃ cb1, requestRedraw 5 cb0 = some (cb1, [.frame cb0.nextCb, .commit]) ∧
      cb1.table cb0.nextCb = some 5 ∧ cb1.nextCb = cb0.nextCb + 1 ∧
      cb1.table 7 = cb0.table 7 := by
  obtain ⟨cb1, ha, hb, hc, hd⟩ := (request_redraw_fresh_key 5 cb0).1 rfl
  exact ⟨cb1, ha, hb, hc, hd 7 (by decide)⟩

/-- Diffing a layer list against itself yields no damage as long as the
per-layer diff reports none for identical layers. -/
theorem damage_diff_self (bounds : Layer → List Rect)
    (d : Layer → Layer → List Rect) (hd : ∀ a, d a a = [])
    (L : List Layer) : damage_diff bounds d L L = [] := by
  have hz : ∀ M : List Layer, (M.zip M).flatMap (fun ab => d ab.1 ab.2) = [] := by
    intro M
    induction M with
    | nil => rfl
    | cons a tl ih => simpa [hd a] using ih
  simp [damage_diff, hz]

/-- C6: the damage `redraw` computes for a frame with no visual change
(current layers equal the stored previous layers) is empty, provided the
per-layer diff reports no damage for identical layers; the damage for a
first frame after (re)configuration (no previous layers) is the full surface
bounds, whose integral coordinates the outward rounding leaves unchanged. -/
theorem redraw_damage_empty_and_first_frame (d : Layer → Layer → List Rect)
    (hd : ∀ a, d a a = []) (L : List Layer) (v : Viewport) :
    computedDamage d L v (some L) = [] ∧
    computedDamage d L v none =
      [⟨0, 0, (v.surface_size.1 : ℚ), (v.surface_size.2 : ℚ)⟩] ∧
    (computedDamage d L v none).map roundWH =
      [⟨0, 0, (v.surface_size.1 : ℚ), (v.surface_size.2 : ℚ)⟩] := by
  refine ⟨damage_diff_self _ d hd L, rfl, ?_⟩
  simp [computedDamage, roundWH]

/-- Witness for C6 at the panel viewport and the empty frame. -/
theorem redraw_damage_empty_and_first_frame_witness :
    computedDamage dNone [] ⟨(800, 35), 1⟩ (some []) = [] ∧
    computedDamage dNone [] ⟨(800, 35), 1⟩ none =
      [⟨0, 0, ((800 : Nat) : ℚ), ((35 : Nat) : ℚ)⟩] ∧
    (computedDamage dNone [] ⟨(800, 35), 1⟩ none).map roundWH =
      [⟨0, 0, ((800 : Nat) : ℚ), ((35 : Nat) : ℚ)⟩] :=
  redraw_damage_empty_and_first_frame dNone (fun _ => rfl) [] ⟨(800, 35), 1⟩

/-- C9: a successful `rescale` to a different scale on a configured window
performs exactly one buffer allocation; the new buffer's viewport keeps the
logical surface size and carries the new scale (so its pixel size is
surface_size x scale), its byte length is the byte size of that viewport, the
damage history is cleared, and therefore the damage the next `redraw`
computes is the full surface bounds. -/
theorem rescale_new_scale_full_damage (scale winId : Nat) (surf : SurfaceRec)
    (c : CursorSt) (serial shape : Option Nat) (buffer : Buffer)
    (clip : Nat × Nat) (ui : Option Unit) (lastL : Option (List Layer))
    (cb : CbState) (nb : Nat) (res : RescaleResult)
    (hne : buffer.viewport.buffer_scale ≠ scale)
    (h : windowRescale scale winId ⟨surf, c, serial, shape,
          .configured buffer clip ui lastL⟩ cb nb = some res) :
    res.allocs = 1 ∧
    ∃ buf m, res.win.config_state = .configured buf m ui none ∧
      buf.viewport = ⟨buffer.viewport.surface_size, scale⟩ ∧
      buf.byteLen = Viewport.buffer_byte_size ⟨buffer.viewport.surface_size, scale⟩ ∧
      ∀ d cur, computedDamage d cur buf.viewport none =
        [⟨0, 0, (buffer.viewport.surface_size.1 : ℚ),
          (buffer.viewport.surface_size.2 : ℚ)⟩] := by
  simp only [windowRescale] at h
  rw [if_neg hne] at h
  split at h
  · cases h
  · split at h
    · cases h
    · injection h with h
      subst h
      exact ⟨rfl, _, _, rfl, rfl, rfl, fun d cur => rfl⟩

/-- Witness for C9: the spec scenario — rescaling the 800x35 panel from
scale 1 to scale 2 allocates one 1600x70x4 = 448000-byte buffer and forces
full-frame damage on the next redraw. -/
theorem rescale_new_scale_full_damage_witness :
    ∃ res, windowRescale 2 0 ⟨⟨10, 11⟩, .unavailable, some 7, none,
        .configured (create_buffer 0 ⟨(800, 35), 1⟩) (800, 35) (some ())
          (some [])⟩ cb0 1 = some res ∧
      res.allocs = 1 ∧
      ∃ buf m, res.win.config_state = .configured buf m (some ()) none ∧
        buf.viewport = ⟨(800, 35), 2⟩ ∧
        buf.byteLen = Viewport.buffer_byte_size ⟨(800, 35), 2⟩ ∧
        computedDamage dNone [] buf.viewport none =
          [⟨0, 0, ((800 : Nat) : ℚ), ((35 : Nat) : ℚ)⟩] ∧
        buf.byteLen = 448000 := by
  obtain ⟨h1, buf, m, h2, h3, h4, h5⟩ :=
    rescale_new_scale_full_damage 2 0 ⟨10, 11⟩ .unavailable (some 7) none
      (create_buffer 0 ⟨(800, 35), 1⟩) (800, 35) (some ()) (some []) cb0 1 _
      (by decide) rfl
  refine ⟨_, rfl, h1, buf, m, h2, h3, h4, h5 dNone [], ?_⟩
  rw [h4]
  decide

/-- Truncation toward zero is the identity on integers. -/
theorem truncQ_intCast (n : ℤ) : truncQ (n : ℚ) = n := by
  unfold truncQ
  split <;> simp

/-- The saturating `as i32` cast is exact on in-range integers. -/
theorem satCastI32_int (n : ℤ) (h1 : -(2 ^ 31) ≤ n) (h2 : n ≤ 2 ^ 31 - 1) :
    satCastI32 (n : ℚ) = n := by
  unfold satCastI32
  rw [truncQ_intCast, min_eq_right h2, max_eq_right h1]

/-- The saturating cast expressed through truncation when the truncated
value is in `i32` range. -/
theorem satCastI32_eq_truncQ (q : ℚ) (h1 : -(2 ^ 31) ≤ truncQ q)
    (h2 : truncQ q ≤ 2 ^ 31 - 1) : satCastI32 q = truncQ q := by
  rw [satCastI32, min_eq_right h2, max_eq_right h1]

/-- Truncating one half toward zero yields zero. -/
theorem truncQ_half : truncQ (1/2 : ℚ) = 0 := by
  rw [truncQ, if_pos (by norm_num : (0:ℚ) ≤ 1/2), Int.floor_eq_zero_iff,
    Set.mem_Ico]
  constructor <;> norm_num

/-- The damage call `redraw` reports for the rectangle (1/2, 0, 1, 1): the
origin is truncated to 0, width and height stay 1. -/
theorem reportCall_half : reportCall (roundWH ⟨1/2, 0, 1, 1⟩) = ⟨0, 0, 1, 1⟩ := by
  have hsx : satCastI32 (1/2 : ℚ) = 0 := by
    rw [satCastI32_eq_truncQ _ (by rw [truncQ_half]; decide)
      (by rw [truncQ_half]; decide), truncQ_half]
  have hs0 : satCastI32 (0 : ℚ) = 0 := by
    have h0 : ((0 : ℤ) : ℚ) = (0 : ℚ) := by norm_num
    rw [← h0]
    exact satCastI32_int 0 (by decide) (by decide)
  have hc1 : (⌈(1 : ℚ)⌉ : ℤ) = 1 := by norm_num
  have hs1 : satCastI32 ((⌈(1 : ℚ)⌉ : ℤ) : ℚ) = 1 := by
    rw [hc1]
    exact satCastI32_int 1 (by decide) (by decide)
  simp only [reportCall, roundWH]
  rw [hsx, hs0, hs1]

/-- C3 counterexample: redrawing `wConf` with a single layer whose bounds
have the non-integer x origin 1/2 produces the computed damage rectangle
(1/2, 0, 1, 1); the point (1, 0) lies in that changed region but in none of
the regions reported by the emitted damage calls, because `redraw` ceils
only width and height and truncates the origin — the reported repaint region
under-covers the changed region. -/
theorem damage_rounding_cex :
    ∃ st2 effs, stateRedraw dNone curHalf wConf = some (st2, effs) ∧
      (∃ r ∈ computedDamage dNone curHalf
          (create_buffer 0 ⟨(2, 1), 1⟩).viewport (some []),
        r.containsPt (1, 0)) ∧
      ∀ c ∈ damageCalls effs, ¬ c.containsPt (1, 0) := by
  refine ⟨_, _, rfl, ⟨⟨1/2, 0, 1, 1⟩, List.Mem.head _, ?_⟩, ?_⟩
  · refine ⟨by norm_num, by norm_num, le_refl (0 : ℚ), by norm_num⟩
  · intro c hc
    have hdc : c = reportCall (roundWH ⟨1/2, 0, 1, 1⟩) := by
      have : c ∈ [reportCall (roundWH ⟨1/2, 0, 1, 1⟩)] := hc
      simpa using this
    rw [hdc, reportCall_half]
    rintro ⟨-, hlt, -, -⟩
    norm_num at hlt

/-- C3 amended: `redraw` rounds only the width and height of each damage
rectangle up to integers (the x/y origin is kept fractional for painting and
truncated toward zero when reported); the painted region therefore always
contains the changed region, and the reported region contains the changed
region when the rectangle's origin is integral (and coordinates are in `i32`
range), but not in general for fractional origins. -/
theorem damage_rounding_integral_origin (d : Layer → Layer → List Rect)
    (cur : List Layer) (surf : SurfaceRec) (c : CursorSt)
    (serial shape : Option Nat) (buffer : Buffer) (clip : Nat × Nat)
    (ui : Option Unit) (lastL : Option (List Layer)) (st2 : WinState)
    (effs : List Effect)
    (h : stateRedraw d cur ⟨surf, c, serial, shape,
          .configured buffer clip ui lastL⟩ = some (st2, effs)) :
    damageCalls effs =
      (computedDamage d cur buffer.viewport lastL).map
        (fun r => reportCall (roundWH r)) ∧
    Effect.paint ((computedDamage d cur buffer.viewport lastL).map roundWH) ∈ effs ∧
    (∀ r : Rect, ∀ p : ℚ × ℚ, r.containsPt p → (roundWH r).containsPt p) ∧
    (∀ r : Rect, isIntQ r.x → isIntQ r.y →
      -(2 ^ 31) ≤ r.x → r.x ≤ 2 ^ 31 - 1 → -(2 ^ 31) ≤ r.y → r.y ≤ 2 ^ 31 - 1 →
      0 ≤ r.width → (⌈r.width⌉ : ℚ) ≤ 2 ^ 31 - 1 →
      0 ≤ r.height → (⌈r.height⌉ : ℚ) ≤ 2 ^ 31 - 1 →
      ∀ p : ℚ × ℚ, r.containsPt p → (reportCall (roundWH r)).containsPt p) := by
  simp only [stateRedraw] at h
  split at h
  · cases h
  · injection h with h
    injection h with hA hB
    subst hB
    refine ⟨?_, ?_, ?_, ?_⟩
    · simp only [damageCalls, List.filterMap_append, List.filterMap_map,
        List.filterMap_cons, List.filterMap_nil, List.nil_append, List.append_nil]
      have hfun : ((fun e => match e with
            | Effect.damage c2 => some c2
            | _ => none) ∘ fun r => Effect.damage (reportCall r)) ∘ roundWH =
          some ∘ fun r => reportCall (roundWH r) := rfl
      rw [hfun, List.filterMap_eq_map]
    · simp
    · intro r p hp
      obtain ⟨ha, hb, hc2, hd2⟩ := hp
      exact ⟨ha, hb.trans_le (add_le_add_left (Int.le_ceil _) _), hc2,
        hd2.trans_le (add_le_add_left (Int.le_ceil _) _)⟩
    · intro r hix hiy hx1 hx2 hy1 hy2 hw0 hwB hh0 hhB p hp
      obtain ⟨ha, hb, hc2, hd2⟩ := hp
      have hxq : (r.x.num : ℚ) = r.x := Rat.coe_int_num_of_den_eq_one hix
      have hyq : (r.y.num : ℚ) = r.y := Rat.coe_int_num_of_den_eq_one hiy
      have hsx : satCastI32 r.x = r.x.num := by
        rw [← hxq]
        refine satCastI32_int _ ?_ ?_
        · exact_mod_cast hxq ▸ hx1
        · exact_mod_cast hxq ▸ hx2
      have hsy : satCastI32 r.y = r.y.num := by
        rw [← hyq]
        refine satCastI32_int _ ?_ ?_
        · exact_mod_cast hyq ▸ hy1
        · exact_mod_cast hyq ▸ hy2
      have hw1 : (0 : ℤ) ≤ ⌈r.width⌉ := Int.ceil_nonneg hw0
      have hh1 : (0 : ℤ) ≤ ⌈r.height⌉ := Int.ceil_nonneg hh0
      have hsw : satCastI32 ((⌈r.width⌉ : ℤ) : ℚ) = ⌈r.width⌉ := by
        refine satCastI32_int _ (le_trans (by norm_num) hw1) ?_
        exact_mod_cast hwB
      have hsh : satCastI32 ((⌈r.height⌉ : ℤ) : ℚ) = ⌈r.height⌉ := by
        refine satCastI32_int _ (le_trans (by norm_num) hh1) ?_
        exact_mod_cast hhB
      refine ⟨?_, ?_, ?_, ?_⟩
      · show ((satCastI32 (roundWH r).x : ℤ) : ℚ) ≤ p.1
        simpa [roundWH, hsx, hxq] using ha
      · show p.1 < ((satCastI32 (roundWH r).x : ℤ) : ℚ) +
          ((satCastI32 (roundWH r).width : ℤ) : ℚ)
        have : p.1 < r.x + (⌈r.width⌉ : ℚ) :=
          hb.trans_le (add_le_add_left (Int.le_ceil _) _)
        simpa [roundWH, hsx, hsw, hxq] using this
      · show ((satCastI32 (roundWH r).y : ℤ) : ℚ) ≤ p.2
        simpa [roundWH, hsy, hyq] using hc2
      · show p.2 < ((satCastI32 (roundWH r).y : ℤ) : ℚ) +
          ((satCastI32 (roundWH r).height : ℤ) : ℚ)
        have : p.2 < r.y + (⌈r.height⌉ : ℚ) :=
          hd2.trans_le (add_le_add_left (Int.le_ceil _) _)
        simpa [roundWH, hsy, hsh, hyq] using this

/-- Witness for the amended C3 on a concrete redraw: the reported damage
calls are the rounded computed damage, and containment holds at an
integral-origin rectangle. -/
theorem damage_rounding_integral_origin_witness :
    ∃ st2 effs, stateRedraw dNone curHalf wConf = some (st2, effs) ∧
      damageCalls effs =
        (computedDamage dNone curHalf
          (create_buffer 0 ⟨(2, 1), 1⟩).viewport (some [])).map
            (fun r => reportCall (roundWH r)) ∧
      (roundWH ⟨0, 0, 1, 1⟩).containsPt (1/2, 1/2) ∧
      (reportCall (roundWH ⟨0, 0, 1, 1⟩)).containsPt (1/2, 1/2) := by
  obtain ⟨hdc, hp, h3, h4⟩ :=
    damage_rounding_integral_origin dNone curHalf ⟨10, 11⟩ .unavailable none none
      (create_buffer 0 ⟨(2, 1), 1⟩) (2, 1) (some ()) (some []) _ _ rfl
  have hin : Rect.containsPt ⟨0, 0, 1, 1⟩ (1/2, 1/2) := by
    refine ⟨by norm_num, by norm_num, by norm_num, by norm_num⟩
  refine ⟨_, _, rfl, hdc, ?_, ?_⟩
  · exact h3 ⟨0, 0, 1, 1⟩ (1/2, 1/2) hin
  · exact h4 ⟨0, 0, 1, 1⟩ rfl rfl (by norm_num) (by norm_num) (by norm_num)
      (by norm_num) (by norm_num) (by norm_num [Int.ceil_one])
      (by norm_num) (by norm_num [Int.ceil_one]) (1/2, 1/2) hin

/-- `State::resize` emits no mouse delivery. -/
theorem stateResize_no_deliver (nb : Nat) (size : Nat × Nat) (st : WinState)
    (sres : SRes) (h : stateResize nb size st = some sres) :
    ∀ x e, Effect.deliverMouse x e ∉ sres.effects := by
  cases st with
  | mk surf cursor serial shape config =>
    cases config with
    | unconfigured k =>
        simp only [stateResize] at h
        split at h
        · cases h
        · injection h with h
          subst h
          intro x e
          simp
    | configured buffer clip ui lastL =>
        simp only [stateResize] at h
        split at h
        · cases h
        · injection h with h
          subst h
          intro x e
          simp

/-- `request_redraw` emits no mouse delivery. -/
theorem requestRedraw_no_deliver (winId : Nat) (cb : CbState) (cb1 : CbState)
    (effs : List Effect) (h : requestRedraw winId cb = some (cb1, effs)) :
    ∀ x e, Effect.deliverMouse x e ∉ effs := by
  simp only [requestRedraw] at h
  split at h
  · cases h
  · injection h with h
    injection h with h1 h2
    subst h2
    intro x e
    simp

/-- `Window::rescale` emits no mouse delivery. -/
theorem windowRescale_no_deliver (scale winId : Nat) (st : WinState)
    (cb : CbState) (nb : Nat) (res : RescaleResult)
    (h : windowRescale scale winId st cb nb = some res) :
    ∀ x e, Effect.deliverMouse x e ∉ res.effects := by
  cases st with
  | mk surf cursor serial shape config =>
    cases config with
    | unconfigured k =>
        simp only [windowRescale, Option.some.injEq] at h
        subst h
        intro x e
        simp
    | configured buffer clip ui lastL =>
        simp only [windowRescale] at h
        split at h
        · injection h with h
          subst h
          intro x e
          simp
        · split at h
          · cases h
          · split at h
            · cases h
            · next cb1 effsR heq =>
                injection h with h
                subst h
                intro x e hmem
                rcases List.mem_append.mp hmem with hm | hm
                · exact requestRedraw_no_deliver winId cb cb1 effsR heq x e hm
                · simp at hm

/-- `State::redraw` emits no mouse delivery. -/
theorem stateRedraw_no_deliver (d : Layer → Layer → List Rect)
    (cur : List Layer) (st : WinState) (st2 : WinState) (effs : List Effect)
    (h : stateRedraw d cur st = some (st2, effs)) :
    ∀ x e, Effect.deliverMouse x e ∉ effs := by
  simp only [stateRedraw] at h
  split at h
  · injection h with h
    injection h with h1 h2
    subst h2
    intro x e
    simp
  · split at h
    · cases h
    · injection h with h
      injection h with h1 h2
      subst h2
      intro x e hmem
      rcases List.mem_append.mp hmem with hm | hm
      · rcases List.mem_append.mp hm with hm2 | hm2
        · simp at hm2
        · rcases List.mem_map.mp hm2 with ⟨rr, -, hrr⟩
          cases hrr
      · simp at hm

/-- `mouseUIStep` emits no mouse delivery. -/
theorem mouseUIStep_no_deliver (uo : UIUpdate) (st2 : WinState) (winId : Nat)
    (cb : CbState) (cb1 : CbState) (effs : List Effect)
    (h : mouseUIStep uo st2 winId cb = some (cb1, effs)) :
    ∀ x e, Effect.deliverMouse x e ∉ effs := by
  simp only [mouseUIStep] at h
  split at h
  · injection h with h
    injection h with h1 h2
    subst h2
    intro x e
    simp
  · next interaction nextFrame hupd =>
      split at h
      · cases h
      · next cbA effsA heq =>
          injection h with h
          injection h with h1 h2
          subst h2
          intro x e hmem
          rcases List.mem_append.mp hmem with hm | hm
          · by_cases hnf : nextFrame = true
            · rw [if_pos hnf] at heq
              exact requestRedraw_no_deliver winId cb cbA effsA heq x e hm
            · rw [if_neg hnf] at heq
              injection heq with heq
              injection heq with heqA heqB
              subst heqB
              simp at hm
          · cases hs : st2.serial with
            | none => simp only [hs] at hm; simp at hm
            | some sr =>
                simp only [hs] at hm
                split at hm <;> simp at hm

/-- `runner.update` on a modelled message emits no mouse delivery. -/
theorem runnerUpdate_no_deliver (m : Msg) (wm : WindowManager)
    (tooltip : Option Nat) (win : Nat → WinState) (wm2 : WindowManager)
    (t2 : Option Nat) (effs : List Effect)
    (h : runnerUpdate m wm tooltip win = some (wm2, t2, effs)) :
    ∀ x e, Effect.deliverMouse x e ∉ effs := by
  cases m with
  | workspace id =>
      simp only [runnerUpdate, Option.some.injEq, Prod.mk.injEq] at h
      obtain ⟨-, -, h3⟩ := h
      subst h3
      intro x e
      simp
  | closeTooltip =>
      simp only [runnerUpdate] at h
      split at h
      · simp only [Option.some.injEq, Prod.mk.injEq] at h
        obtain ⟨-, -, h3⟩ := h
        subst h3
        intro x e
        simp
      · split at h
        · cases h
        · simp only [Option.some.injEq, Prod.mk.injEq] at h
          obtain ⟨-, -, h3⟩ := h
          subst h3
          intro x e
          simp

/-- The message loop of `Window::mouse` emits no mouse delivery. -/
theorem runnerUpdates_no_deliver (msgs : List Msg) :
    ∀ wm tooltip win wm2 t2 effs,
      runnerUpdates msgs wm tooltip win = some (wm2, t2, effs) →
      ∀ x e, Effect.deliverMouse x e ∉ effs := by
  induction msgs with
  | nil =>
      intro wm tooltip win wm2 t2 effs h x e
      simp only [runnerUpdates, Option.some.injEq, Prod.mk.injEq] at h
      obtain ⟨-, -, h3⟩ := h
      subst h3
      simp
  | cons m rest ih =>
      intro wm tooltip win wm2 t2 effs h x e
      simp only [runnerUpdates] at h
      cases h1 : runnerUpdate m wm tooltip win with
      | none => rw [h1] at h; cases h
      | some p1 =>
          obtain ⟨wm1, t1, effs1⟩ := p1
          simp only [h1] at h
          cases h2 : runnerUpdates rest wm1 t1 win with
          | none => simp only [h2] at h; cases h
          | some p2 =>
              obtain ⟨wmB, tB, effs2⟩ := p2
              simp only [h2] at h
              simp only [Option.some.injEq, Prod.mk.injEq] at h
              obtain ⟨-, -, h3⟩ := h
              subst h3
              intro hmem
              rcases List.mem_append.mp hmem with hm | hm
              · exact runnerUpdate_no_deliver m wm tooltip win wm1 t1 effs1 h1 x e hm
              · exact ih wm1 t1 win wmB tB effs2 h2 x e hm

/-- `Window::mouse` emits no mouse delivery (deliveries are recorded by the
dispatcher when it routes the event). -/
theorem windowMouse_no_deliver (uo : UIUpdate) (ev : MouseEvent) (winId : Nat)
    (r : RState) (r1 : RState) (effs : List Effect)
    (h : windowMouse uo ev winId r = some (r1, effs)) :
    ∀ x e, Effect.deliverMouse x e ∉ effs := by
  simp only [windowMouse] at h
  split at h
  · injection h with h
    injection h with h1 h2
    subst h2
    intro x e
    simp
  · split at h
    · cases h
    · next cb1 effsU hstep =>
        split at h
        · cases h
        · next wm2 t2 effsM hrun =>
            injection h with h
            injection h with h1 h2
            subst h2
            intro x e hmem
            rcases List.mem_append.mp hmem with hm | hm
            · rcases List.mem_append.mp hm with hm2 | hm2
              · exact mouseUIStep_no_deliver uo _ winId r.cb cb1 effsU hstep x e hm2
              · exact runnerUpdates_no_deliver _ _ _ _ wm2 t2 effsM hrun x e hm2
            · simp at hm

/-- Delivering `CursorLeft` to a configured window clears its remembered
serial and its last-applied cursor-shape state. -/
theorem windowMouse_cursorLeft_state (uo : UIUpdate) (winId : Nat) (r : RState)
    (r1 : RState) (effs : List Effect) (buffer : Buffer) (clip : Nat × Nat)
    (ui : Option Unit) (lastL : Option (List Layer))
    (hc : (r.win winId).config_state = .configured buffer clip ui lastL)
    (h : windowMouse uo .cursorLeft winId r = some (r1, effs)) :
    (r1.win winId).serial = none ∧ (r1.win winId).shape = none := by
  simp only [windowMouse, hc] at h
  split at h
  · cases h
  · next cb1 effsU hstep =>
      split at h
      · cases h
      · next wm2 t2 effsM hrun =>
          injection h with h
          injection h with h1 h2
          subst h1
          constructor <;> simp [updW]

/-- C7 amended: pointer Motion and Button events are only ever delivered to
the window the registry currently resolves as focused (with no focused
window they are dropped without effect), and after a `Leave` is dispatched
`focused()` resolves to no window; when the `Leave` was delivered to a
window in the `Configured` state, that window's remembered serial and
last-applied cursor-shape state are reset (an `Unconfigured` window's serial
is left unchanged, see the counterexample). -/
theorem input_routing_focus (d : Layer → Layer → List Rect) (cur : List Layer)
    (uo : UIUpdate) (e : WEvent) (r : RState) (out : RState × List Effect × Bool)
    (h : dispatch d cur uo e r = some out) :
    (∀ w ev, Effect.deliverMouse w ev ∈ out.2.1 → isMotionOrButton ev = true →
      focusedWindow r.wm = some w) ∧
    (∀ ev, isMotionOrButton ev = true → focusedWindow r.wm = none →
      dispatch d cur uo (.mouse ev) r = some (r, [], false)) ∧
    (e = .mouse .cursorLeft →
      focusedWindow out.1.wm = none ∧
      ∀ w, focusedWindow r.wm = some w → isConfigured (r.win w) = true →
        (out.1.win w).serial = none ∧ (out.1.win w).shape = none) := by
  refine ⟨?_, ?_, ?_⟩
  · intro w ev hmem hmb
    cases e with
    | resize object size =>
        simp only [dispatch] at h
        cases hf : find_by_object r.wm object with
        | none =>
            simp only [hf] at h
            injection h with h
            subst h
            simp at hmem
        | some wA =>
            simp only [hf] at h
            split at h
            · cases h
            · next sres hsres =>
                split at h
                · cases h
                · next cbR effsR hreq =>
                    injection h with h
                    subst h
                    exfalso
                    rcases List.mem_append.mp hmem with hm | hm
                    · rcases List.mem_append.mp hm with hm2 | hm2
                      · exact stateResize_no_deliver _ _ _ _ hsres w ev hm2
                      · exact requestRedraw_no_deliver _ _ _ _ hreq w ev hm2
                    · simp at hm
    | rescale surface factor =>
        simp only [dispatch] at h
        cases hf : find_by_object r.wm surface with
        | none =>
            simp only [hf] at h
            injection h with h
            subst h
            simp at hmem
        | some wA =>
            simp only [hf] at h
            split at h
            · cases h
            · next res hres =>
                injection h with h
                subst h
                exact absurd hmem (windowRescale_no_deliver _ _ _ _ _ _ hres w ev)
    | enter surface serial =>
        simp only [dispatch] at h
        cases hf : find_by_object r.wm surface with
        | none =>
            simp only [hf] at h
            injection h with h
            subst h
            simp at hmem
        | some wA =>
            simp only [hf] at h
            cases hwm : windowMouse uo .cursorEntered wA r with
            | none => simp only [hwm] at h; cases h
            | some p =>
                obtain ⟨r1, effs1⟩ := p
                simp only [hwm] at h
                injection h with h
                subst h
                rcases List.mem_cons.mp hmem with hm | hm
                · injection hm with hw hev
                  subst hev
                  simp [isMotionOrButton] at hmb
                · exact absurd hm (windowMouse_no_deliver _ _ _ _ _ _ hwm w ev)
    | mouse ev0 =>
        simp only [dispatch] at h
        cases hfo : r.wm.focused with
        | none =>
            simp only [hfo] at h
            injection h with h
            subst h
            simp at hmem
        | some fs =>
            simp only [hfo] at h
            cases hlu : r.wm.lut fs with
            | none =>
                simp only [hlu] at h
                injection h with h
                subst h
                simp at hmem
            | some wA =>
                simp only [hlu] at h
                cases hwm : windowMouse uo ev0 wA r with
                | none => simp only [hwm] at h; cases h
                | some p =>
                    obtain ⟨r1, effs1⟩ := p
                    simp only [hwm] at h
                    injection h with h
                    subst h
                    rcases List.mem_cons.mp hmem with hm | hm
                    · injection hm with hw hev
                      subst hw
                      unfold focusedWindow
                      rw [hfo]
                      exact hlu
                    · exact absurd hm (windowMouse_no_deliver _ _ _ _ _ _ hwm w ev)
    | callbackDone cbId =>
        simp only [dispatch] at h
        cases hcb : r.cb.table cbId with
        | none => simp only [hcb] at h; cases h
        | some wA =>
            simp only [hcb] at h
            cases hrd : stateRedraw d cur (r.win wA) with
            | none => simp only [hrd] at h; cases h
            | some sres =>
                obtain ⟨stA, effsA⟩ := sres
                simp only [hrd] at h
                injection h with h
                subst h
                exact absurd hmem (stateRedraw_no_deliver _ _ _ _ _ hrd w ev)
  · intro ev hmb hfn
    cases hfo : r.wm.focused with
    | none => simp only [dispatch, hfo]
    | some fs =>
        unfold focusedWindow at hfn
        rw [hfo] at hfn
        have hfn2 : r.wm.lut fs = none := hfn
        simp only [dispatch, hfo, hfn2]
  · rintro rfl
    simp only [dispatch] at h
    cases hfo : r.wm.focused with
    | none =>
        simp only [hfo] at h
        injection h with h
        subst h
        refine ⟨?_, ?_⟩
        · unfold focusedWindow
          rw [hfo]
          rfl
        · intro w hfw hcf
          unfold focusedWindow at hfw
          rw [hfo] at hfw
          cases hfw
    | some fs =>
        simp only [hfo] at h
        cases hlu : r.wm.lut fs with
        | none =>
            simp only [hlu] at h
            injection h with h
            subst h
            refine ⟨?_, ?_⟩
            · unfold focusedWindow
              rw [hfo]
              exact hlu
            · intro w hfw hcf
              unfold focusedWindow at hfw
              rw [hfo] at hfw
              have hfw2 : r.wm.lut fs = some w := hfw
              rw [hlu] at hfw2
              cases hfw2
        | some wA =>
            simp only [hlu] at h
            cases hwm : windowMouse uo .cursorLeft wA r with
            | none => simp only [hwm] at h; cases h
            | some p =>
                obtain ⟨r1, effs1⟩ := p
                simp only [hwm] at h
                injection h with h
                subst h
                refine ⟨rfl, ?_⟩
                intro w hfw hcf
                unfold focusedWindow at hfw
                rw [hfo] at hfw
                have hfw2 : r.wm.lut fs = some w := hfw
                rw [hlu] at hfw2
                injection hfw2 with hfw2
                subst hfw2
                cases hcs : (r.win wA).config_state with
                | unconfigured k =>
                    simp only [isConfigured, hcs] at hcf
                    simp at hcf
                | configured buffer clip ui lastL =>
                    exact windowMouse_cursorLeft_state uo wA r r1 effs1
                      buffer clip ui lastL hcs hwm

/-- C7 counterexample: a `Leave` dispatched to the focused but still
unconfigured window of `rStale` is delivered and clears the global focus,
yet the window's remembered serial stays 7 — the claim that a Leave always
resets the delivered window's serial and cursor-shape state is false. -/
theorem leave_serial_not_reset_cex :
    ∃ out, dispatch dNone [] uoIdle (.mouse .cursorLeft) rStale = some out ∧
      Effect.deliverMouse 0 .cursorLeft ∈ out.2.1 ∧
      out.1.wm.focused = none ∧
      (out.1.win 0).serial = some 7 :=
  ⟨_, rfl, List.Mem.head _, rfl, rfl⟩

/-- Witness for the amended C7: a Motion event on `rStale` is delivered
exactly to its focused window. -/
theorem input_routing_focus_witness :
    ∃ out, dispatch dNone [] uoIdle (.mouse (.cursorMoved 1 2)) rStale = some out ∧
      focusedWindow rStale.wm = some 0 := by
  obtain ⟨h1, -, -⟩ :=
    input_routing_focus dNone [] uoIdle (.mouse (.cursorMoved 1 2)) rStale _ rfl
  exact ⟨_, rfl, h1 0 (.cursorMoved 1 2) (List.Mem.head _) rfl⟩

end Hyoka
